import Mathlib

/-! Verification of the CONSIM consciousness-lattice engine (`src/lattice.py`).

Shallow embedding: Python floats are modelled as real numbers, the mutable
`ConsciousnessNode` / `Universe` / `ConsciousnessLattice` objects as Lean
structures with explicit state passing, and `np.random` draws as injected
parameters (the raw draw in [0,1) for the tunneling branches, explicit
values for initialisation randomness).  Python object references held by a
`Universe` into the engine's node list are modelled as indices into that
list, as the lists are only ever mutated in place or appended to.
-/

namespace CONSIM

open Real

noncomputable section

open scoped Classical

/-- Python `math.atan2 y x` / `np.arctan2`, modelled as the argument of the
complex number `x + y*i`; both agree on all of ℝ², including `atan2 0 0 = 0`. -/
def atan2 (y x : ℝ) : ℝ := Complex.arg (Complex.mk x y)

/-- Python's float modulo `a % b` for `b > 0`: `a - b * ⌊a / b⌋`, in `[0, b)`. -/
def realMod (a b : ℝ) : ℝ := a - b * ⌊a / b⌋

theorem realMod_eq_fract (a b : ℝ) (hb : b ≠ 0) :
    realMod a b = b * Int.fract (a / b) := by
  unfold realMod
  rw [Int.fract, mul_sub, mul_div_cancel₀ _ hb]

theorem realMod_nonneg (a b : ℝ) (hb : 0 < b) : 0 ≤ realMod a b := by
  rw [realMod_eq_fract a b hb.ne']
  exact mul_nonneg hb.le (Int.fract_nonneg _)

theorem realMod_lt (a b : ℝ) (hb : 0 < b) : realMod a b < b := by
  rw [realMod_eq_fract a b hb.ne']
  calc b * Int.fract (a / b) < b * 1 :=
        (mul_lt_mul_left hb).mpr (Int.fract_lt_one _)
    _ = b := mul_one b

/-- Python `ConsciousnessNode` (src/lattice.py, lines 27-78): all mutable per-entity
state, field for field, with the dataclass defaults recorded in `node0`. -/
structure Node where
  x : ℝ
  y : ℝ
  vx : ℝ
  vy : ℝ
  radius : ℝ
  base_radius : ℝ
  frequency : ℝ
  base_frequency : ℝ
  phase : ℝ
  attention : ℝ
  consciousness_re : ℝ
  consciousness_im : ℝ
  universe_id : ℕ
  resonance_coeff : ℝ
  mass : ℝ
  logic_tensor : ℝ × ℝ
  memory_tensor : ℝ × ℝ
  processing_tensor : ℝ × ℝ
  creativity_tensor : ℝ × ℝ
  social_tensor : ℝ × ℝ
  consciousness_depth : ℝ
  self_awareness : ℝ
  adaptive_capacity : ℝ
  collective_intelligence : ℝ
  cluster_id : ℤ
  thought_intensity : ℝ
  recursion_level : ℕ

/-- The dataclass defaults of `ConsciousnessNode`. -/
def node0 : Node where
  x := 0
  y := 0
  vx := 0
  vy := 0
  radius := 3
  base_radius := 3
  frequency := 40
  base_frequency := 40
  phase := 0
  attention := 0
  consciousness_re := 0
  consciousness_im := 0
  universe_id := 0
  resonance_coeff := 1
  mass := 1
  logic_tensor := (0.5, 0.5)
  memory_tensor := (0.5, 0.5)
  processing_tensor := (0.5, 0.5)
  creativity_tensor := (0.5, 0.5)
  social_tensor := (0.5, 0.5)
  consciousness_depth := 0
  self_awareness := 0
  adaptive_capacity := 0
  collective_intelligence := 0
  cluster_id := -1
  thought_intensity := 0
  recursion_level := 0

/-- The physics-parameter dictionary `self.params`: a finite string-keyed map,
modelled as a partial function (Python `dict` with `.get`/`[]`/`.update`). -/
def Params : Type := String → Option ℝ

/-- Python `params.get(k, d)`. -/
def pget (p : Params) (k : String) (d : ℝ) : ℝ := (p k).getD d

/-- Python `params[k] = v`. -/
def dictInsert (p : Params) (k : String) (v : ℝ) : Params :=
  fun k' => if k' = k then some v else p k'

/-- Python `ConsciousnessLattice.update_params` (line 619-621): `self.params.update(new_params)`,
the argument dictionary modelled as an association list in insertion order. -/
def update_params (p : Params) (new : List (String × ℝ)) : Params :=
  new.foldl (fun acc kv => dictInsert acc kv.1 kv.2) p

/-- The initial `self.params` dictionary built in `__init__` (lines 308-314). -/
def initParams : Params := fun k =>
  if k = "gravity" then some 1.0
  else if k = "friction" then some 0.99
  else if k = "elasticity" then some 0.8
  else if k = "time_dilation" then some 1.0
  else if k = "field_strength" then some 1.0
  else none

/-- The five parameter keys the engine reads. -/
def recognizedKeys : List String :=
  ["gravity", "friction", "elasticity", "time_dilation", "field_strength"]

/-- The `mouse_influence` dictionary, with the `.get` defaults of
`_apply_mouse_interaction` (lines 115-118) already applied. -/
structure MouseInfluence where
  x : ℝ
  y : ℝ
  mode : String
  active : Bool

/-- Python `ConsciousnessNode._apply_mouse_interaction` (lines 113-151); `tNow` is the
wall-clock value `time.time()` read in the `wave` branch. -/
def applyMouseInteraction (m : MouseInfluence) (dt : ℝ) (p : Params) (tNow : ℝ)
    (n : Node) : Node :=
  if m.active = false then n
  else
    let dx_mouse := m.x - n.x
    let dy_mouse := m.y - n.y
    let distance_mouse := Real.sqrt (dx_mouse ^ 2 + dy_mouse ^ 2)
    let max_distance := 200 * pget p "field_strength" 1.0
    if distance_mouse < max_distance then
      let angle := atan2 dy_mouse dx_mouse
      let force := (max_distance - distance_mouse) / max_distance * pget p "field_strength" 1.0
      if m.mode = "push" then
        { n with vx := n.vx - Real.cos angle * force * 0.4 * dt * 60
                 vy := n.vy - Real.sin angle * force * 0.4 * dt * 60 }
      else if m.mode = "pull" then
        { n with vx := n.vx + Real.cos angle * force * 0.4 * dt * 60
                 vy := n.vy + Real.sin angle * force * 0.4 * dt * 60 }
      else if m.mode = "vortex" then
        let tangential_angle := angle + π / 2
        { n with vx := n.vx + Real.cos tangential_angle * force * 0.5 * dt * 60
                 vy := n.vy + Real.sin tangential_angle * force * 0.5 * dt * 60 }
      else if m.mode = "wave" then
        let time_factor := tNow * 10
        let wave_force := Real.sin (distance_mouse * 0.05 - time_factor) * force
        { n with vx := n.vx + Real.cos angle * wave_force * 0.5 * dt * 60
                 vy := n.vy + Real.sin angle * wave_force * 0.5 * dt * 60 }
      else n
    else n

/-- Gravity section of `_apply_physics` (lines 156-164). -/
def applyGravity (dt : ℝ) (p : Params) (n : Node) : Node :=
  if pget p "gravity" 0 > 0 then
    let dx := 0 - n.x
    let dy := 0 - n.y
    let dist_center := Real.sqrt (dx ^ 2 + dy ^ 2)
    if dist_center > 10 then
      let gravity_force := (p "gravity").getD 0 * 0.001 * dt * 60
      { n with vx := n.vx + dx / dist_center * gravity_force
               vy := n.vy + dy / dist_center * gravity_force }
    else n
  else n

/-- Position integration of `_apply_physics` (lines 166-168). -/
def integratePosition (dt : ℝ) (n : Node) : Node :=
  { n with x := n.x + n.vx * dt * 60
           y := n.y + n.vy * dt * 60 }

/-- Friction section of `_apply_physics` (lines 170-173). -/
def applyFriction (dt : ℝ) (p : Params) (n : Node) : Node :=
  let friction := pget p "friction" 0.99 ^ (dt * 60)
  { n with vx := n.vx * friction
           vy := n.vy * friction }

/-- x-axis boundary handling of `_apply_physics` (lines 175-186).  `rx` is the
injected `np.random.random()` draw; the tunneling branch fires when `rx < 0.05`. -/
def boundaryAxisX (p : Params) (rx : ℝ) (n : Node) : Node :=
  if n.x < -(1000 / 2) ∨ n.x > 1000 / 2 then
    if rx < 0.05 then
      { n with x := if n.x < -(1000 / 2) then 1000 / 2 else -(1000 / 2)
               vx := n.vx * (-0.5) }
    else
      { n with vx := n.vx * (-0.8 * pget p "elasticity" 0.8)
               x := min (1000 / 2) (max (-(1000 / 2)) n.x) }
  else n

/-- y-axis boundary handling of `_apply_physics` (lines 188-195). -/
def boundaryAxisY (p : Params) (ry : ℝ) (n : Node) : Node :=
  if n.y < -(1000 / 2) ∨ n.y > 1000 / 2 then
    if ry < 0.05 then
      { n with y := if n.y < -(1000 / 2) then 1000 / 2 else -(1000 / 2)
               vy := n.vy * (-0.5) }
    else
      { n with vy := n.vy * (-0.8 * pget p "elasticity" 0.8)
               y := min (1000 / 2) (max (-(1000 / 2)) n.y) }
  else n

/-- The pre-boundary part of `_apply_physics` (lines 156-173): gravity,
position integration, friction, in source order. -/
def prePhysics (dt : ℝ) (p : Params) (n : Node) : Node :=
  applyFriction dt p (integratePosition dt (applyGravity dt p n))

/-- Python `ConsciousnessNode._apply_physics` (lines 153-195), in source order:
gravity, position integration, friction, then per-axis boundary handling. -/
def applyPhysics (dt : ℝ) (p : Params) (rx ry : ℝ) (n : Node) : Node :=
  boundaryAxisY p ry (boundaryAxisX p rx (prePhysics dt p n))

/-- Python `ConsciousnessNode._update_intelligence_tensors` (lines 197-223). -/
def updateIntelligenceTensors (dt : ℝ) (p : Params) (n : Node) : Node :=
  let evolution_rate := 0.02 * pget p "time_dilation" 1.0
  let memory : ℝ × ℝ :=
    (n.memory_tensor.1 + n.logic_tensor.1 * evolution_rate * 0.1,
     n.memory_tensor.2 + n.logic_tensor.2 * evolution_rate * 0.1)
  let processing : ℝ × ℝ :=
    (n.processing_tensor.1 + memory.1 * evolution_rate * 0.15,
     n.processing_tensor.2 + memory.2 * evolution_rate * 0.15)
  let logic_magnitude := Real.sqrt (n.logic_tensor.1 ^ 2 + n.logic_tensor.2 ^ 2)
  let memory_magnitude := Real.sqrt (memory.1 ^ 2 + memory.2 ^ 2)
  let processing_magnitude := Real.sqrt (processing.1 ^ 2 + processing.2 ^ 2)
  { n with memory_tensor := memory
           processing_tensor := processing
           consciousness_depth :=
             min 1 ((logic_magnitude + memory_magnitude + processing_magnitude) / 3)
           self_awareness := min 1 (logic_magnitude * 0.8 + n.thought_intensity * 0.2)
           thought_intensity := max 0 (n.thought_intensity - dt * 0.5) }

/-- Python `ConsciousnessNode.update` (lines 80-111): time dilation, the Core-EQ
complex value, phase evolution reduced modulo 2π, optional mouse interaction,
physics, tensor evolution, and the radius update. -/
def nodeUpdate (delta_time : ℝ) (p : Params) (m : Option MouseInfluence)
    (tNow rx ry : ℝ) (n : Node) : Node :=
  let dt := delta_time * pget p "time_dilation" 1.0
  let n1 := { n with consciousness_re := n.attention * n.frequency * Real.cos n.phase
                     consciousness_im := n.attention * n.frequency * Real.sin n.phase }
  let n2 := { n1 with phase := realMod (n1.phase + n1.frequency * dt * 2 * π / 1000) (2 * π) }
  let n3 := match m with
    | some mi => applyMouseInteraction mi dt p tNow n2
    | none => n2
  let n4 := applyPhysics dt p rx ry n3
  let n5 := updateIntelligenceTensors dt p n4
  { n5 with radius := n5.base_radius +
      Real.sqrt (n5.consciousness_re ^ 2 + n5.consciousness_im ^ 2) * 0.1 }

/-- Python `ConsciousnessNode.calculate_attention_density` (lines 225-229). -/
def attentionDensity (n : Node) : ℝ :=
  Real.exp (-(n.x ^ 2 + n.y ^ 2) / (2 * 200 ^ 2))

/-- Python `Universe` (lines 250-259).  The Python object holds a list of references
into the engine's node list; `node_idxs` holds the corresponding indices
(nodes are appended at creation and referenced in place, so indices are
stable except for the explicit reindexing in `remove_node`). -/
structure Universe where
  id : ℕ
  center_x : ℝ
  center_y : ℝ
  radius : ℝ
  resonance_coeff : ℝ
  node_idxs : List ℕ

/-- The frequency written by `Universe.update` (line 266). -/
def modFreq (u : Universe) (time_factor : ℝ) (n : Node) : ℝ :=
  n.base_frequency * (1 + u.resonance_coeff * 0.2 * Real.sin (time_factor * 0.05))

/-- Python `Universe._contains_node` (lines 268-271). -/
def inRange (u : Universe) (n : Node) : Prop :=
  Real.sqrt ((n.x - u.center_x) ^ 2 + (n.y - u.center_y) ^ 2) < u.radius

/-- One member-list step of `Universe.update`: look up the referenced node and,
if it lies inside the boundary, overwrite its frequency. -/
def modulateAt (u : Universe) (time_factor : ℝ) (ns : List Node) (i : ℕ) : List Node :=
  match ns.get? i with
  | none => ns
  | some n =>
      if inRange u n then ns.set i { n with frequency := modFreq u time_factor n }
      else ns

/-- Python `Universe.update` (lines 261-266): `for node in self.nodes: if contained,
modulate frequency` — iterating the universe's own membership list. -/
def universeUpdate (u : Universe) (time_factor : ℝ) (ns : List Node) : List Node :=
  u.node_idxs.foldl (modulateAt u time_factor) ns

/-- The `for universe in self.universes: universe.update(self.time)` loop of
`ConsciousnessLattice.update` (lines 400-401). -/
def universesUpdate (us : List Universe) (time_factor : ℝ) (ns : List Node) : List Node :=
  us.foldl (fun acc u => universeUpdate u time_factor acc) ns

/-- Variant of `List.map` carrying the element index, used to model Python
`for i, node in enumerate(...)` loops that write back in place. -/
def mapWithIdx (f : ℕ → Node → Node) : ℕ → List Node → List Node
  | _, [] => []
  | i, n :: t => f i n :: mapWithIdx f (i + 1) t

/-- The fields of a node read by `_update_clusters` (positions, phase,
frequency); cluster detection is a pure function of these. -/
structure Core where
  x : ℝ
  y : ℝ
  phase : ℝ
  frequency : ℝ

def coreOf (n : Node) : Core :=
  { x := n.x, y := n.y, phase := n.phase, frequency := n.frequency }

def core0 : Core := { x := 0, y := 0, phase := 0, frequency := 0 }

/-- The edge relation of `_update_clusters` (lines 479-492): proximity below 80
plus phase and frequency compatibility, with the 0.001 denominator clamp. -/
def clusterEdge (a b : Core) : Prop :=
  Real.sqrt ((b.x - a.x) ^ 2 + (b.y - a.y) ^ 2) < 80 ∧
  |Real.sin (a.phase - b.phase)| < 0.5 ∧
  min a.frequency b.frequency / max (max a.frequency b.frequency) 0.001 > 0.7

/-- The `while queue and safety_counter < max_iterations` BFS of
`_update_clusters` (lines 470-495), with the safety counter as fuel.
Each pop scans all indices in ascending order, appending the unprocessed
neighbours to the queue, the processed set and the growing cluster. -/
def bfsRun (cores : List Core) : ℕ → List ℕ → List ℕ → List ℕ → List ℕ × List ℕ
  | 0, _, processed, cluster => (cluster, processed)
  | _ + 1, [], processed, cluster => (cluster, processed)
  | fuel + 1, cur :: rest, processed, cluster =>
      let cn := cores.getD cur core0
      let news := (List.range cores.length).filter
        (fun j => j ∉ processed ∧ clusterEdge cn (cores.getD j core0))
      bfsRun cores fuel (rest ++ news) (processed ++ news) (cluster ++ news)

/-- A materialized cluster record (lines 498-513): discovery-order id, member
references (as indices), centroid, and the two placeholder scalars. -/
structure Cluster where
  id : ℕ
  members : List ℕ
  center_x : ℝ
  center_y : ℝ
  recursion_depth : ℕ
  complexity_score : ℕ

/-- The outer `for i, node in enumerate(self.nodes)` loop of
`_update_clusters` (lines 460-513): BFS from each unvisited index, keeping
components of size ≥ 3 as clusters with ids in discovery order. -/
def buildClustersAux (cores : List Core) :
    List ℕ → List ℕ → List Cluster → List Cluster
  | [], _, acc => acc
  | i :: rest, processed, acc =>
      if i ∈ processed then buildClustersAux cores rest processed acc
      else
        let r := bfsRun cores (cores.length * 2) [i] (processed ++ [i]) [i]
        let cluster_nodes := r.1
        let processed' := r.2
        if 3 ≤ cluster_nodes.length then
          let c : Cluster :=
            { id := acc.length
              members := cluster_nodes
              center_x := (cluster_nodes.map (fun j => (cores.getD j core0).x)).sum /
                cluster_nodes.length
              center_y := (cluster_nodes.map (fun j => (cores.getD j core0).y)).sum /
                cluster_nodes.length
              recursion_depth := 0
              complexity_score := 0 }
          buildClustersAux cores rest processed' (acc ++ [c])
        else buildClustersAux cores rest processed' acc

def buildClusters (cores : List Core) : List Cluster :=
  buildClustersAux cores (List.range cores.length) [] []

/-- The final cluster id held by node `j` after the reset to -1 (lines 453-454)
and the sequential per-cluster assignments (lines 509-511). -/
def clusterAssign (cs : List Cluster) (j : ℕ) : ℤ :=
  cs.foldl (fun acc c => if j ∈ c.members then (c.id : ℤ) else acc) (-1)

/-- Write the computed cluster ids back into the node list. -/
def setIds (assign : ℕ → ℤ) : ℕ → List Node → List Node
  | _, [] => []
  | i, n :: t => { n with cluster_id := assign i } :: setIds assign (i + 1) t

/-- Python `ConsciousnessLattice` state (lines 292-322): the entity collection, the
universes, the current cluster list, the λ weights, the live parameter map,
the simulation-time accumulator, the last wall-clock stamp and the mouse
influence queue. -/
structure Lattice where
  nodes : List Node
  universes : List Universe
  clusters : List Cluster
  lambdas : List ℝ
  params : Params
  time : ℝ
  last_update_time : ℝ
  mouse_influence_queue : List MouseInfluence

/-- Python `ConsciousnessLattice._update_clusters` (lines 450-513) as a state
transformer: rebuild the cluster list from the node cores and write the
cluster ids back. -/
def updateClusters (s : Lattice) : Lattice :=
  let cs := buildClusters (s.nodes.map coreOf)
  { s with nodes := setIds (clusterAssign cs) 0 s.nodes
           clusters := cs }

/-- Python `ConsciousnessLattice._normalize_attention_field` (lines 374-386): refresh
every attention from the Gaussian density, then divide by the total if it is
positive. -/
def normalizeAttentionField (ns : List Node) : List Node :=
  let withA := ns.map (fun n => { n with attention := attentionDensity n })
  let total := (withA.map Node.attention).sum
  if total > 0 then withA.map (fun n => { n with attention := n.attention / total })
  else withA

/-- Python `ConsciousnessLattice.__init__` (lines 292-322) after the randomness of
`_initialize_universes` / `_initialize_nodes` has produced the universe list,
the λ weights and the raw node list: the node collection is the raw list run
through one normalization pass, all other state starts empty/zero. -/
def initLattice (us : List Universe) (lambdas : List ℝ) (raw : List Node)
    (t0 : ℝ) : Lattice :=
  { nodes := normalizeAttentionField raw
    universes := us
    clusters := []
    lambdas := lambdas
    params := initParams
    time := 0
    last_update_time := t0
    mouse_influence_queue := [] }

/-- The fresh node built by `add_node` (lines 543-553) with injected random
universe id, frequency and phase; dataclass defaults otherwise. -/
def mkNode (x y freq phase : ℝ) (uid : ℕ) (res : ℝ) : Node :=
  { node0 with x := x, y := y, frequency := freq, phase := phase,
               universe_id := uid, resonance_coeff := res }

/-- Python `ConsciousnessLattice.add_node` (lines 543-564): build the node, set its
raw attention, append it to the engine list and its universe's member list,
then renormalize the whole attention field. -/
def add_node (s : Lattice) (x y freq phase : ℝ) (uid : ℕ) : Lattice :=
  let res := s.lambdas.getD uid 0
  let node := { mkNode x y freq phase uid res with
                  attention := attentionDensity (mkNode x y freq phase uid res) }
  let idx := s.nodes.length
  { s with nodes := normalizeAttentionField (s.nodes ++ [node])
           universes := mapUniverseAppend s.universes uid idx }
where
  /-- Python `self.universes[universe_id].nodes.append(node)` in index form. -/
  mapUniverseAppend (us : List Universe) (uid idx : ℕ) : List Universe :=
    us.mapIdx (fun i u => if i = uid then { u with node_idxs := u.node_idxs ++ [idx] } else u)

/-- Python `ConsciousnessLattice.remove_node` (lines 566-578) for the node at index
`i`: drop it from the engine list, drop the reference from its universe's
member list (in index form: remove `i` and shift the larger indices down),
then renormalize. -/
def remove_node (s : Lattice) (i : ℕ) : Lattice :=
  let uid := ((s.nodes.get? i).map Node.universe_id).getD 0
  let dropRef : List ℕ → List ℕ := fun js =>
    (js.filter (fun j => j ≠ i)).map (fun j => if i < j then j - 1 else j)
  { s with nodes := normalizeAttentionField (s.nodes.eraseIdx i)
           universes := s.universes.mapIdx (fun k u =>
             if k = uid then { u with node_idxs := dropRef u.node_idxs } else u) }

/-- Python `ConsciousnessLattice.quantum_collapse` (lines 580-599) applied to one
node: inside radius 200 the complex value is zeroed and the phase shifted by
π (reduced mod 2π); the outward push is applied only at positive distance. -/
def collapseNode (x y : ℝ) (n : Node) : Node :=
  let dx := n.x - x
  let dy := n.y - y
  let distance := Real.sqrt (dx ^ 2 + dy ^ 2)
  if distance < 200 then
    let n1 := { n with consciousness_re := 0
                       consciousness_im := 0
                       phase := realMod (n.phase + π) (2 * π) }
    if distance > 0 then
      let angle := atan2 dy dx
      let push_force := (200 - distance) / 200 * 5
      { n1 with vx := n1.vx + Real.cos angle * push_force
                vy := n1.vy + Real.sin angle * push_force }
    else n1
  else n

/-- Python `ConsciousnessLattice.quantum_collapse` over the whole collection. -/
def quantumCollapse (x y : ℝ) (s : Lattice) : Lattice :=
  { s with nodes := s.nodes.map (collapseNode x y) }

/-- The pairwise repulsion of `_update_nodes_with_interactions`
(lines 426-437) exerted on `node` by `other`; zero outside the interaction
band (and at coincident positions, where `distance > 0` fails). -/
def pairForce (dt : ℝ) (p : Params) (node other : Node) : ℝ × ℝ :=
  let dx := other.x - node.x
  let dy := other.y - node.y
  let distance := Real.sqrt (dx ^ 2 + dy ^ 2)
  let min_distance := node.radius + other.radius + 10
  if distance < min_distance ∧ distance > 0 then
    let force := (min_distance - distance) / min_distance
    let angle := atan2 dy dx
    let repulsion_strength := 0.5 * dt * 60 * (p "elasticity").getD 0
    (-(Real.cos angle * force * repulsion_strength),
     -(Real.sin angle * force * repulsion_strength))
  else (0, 0)

/-- The total repulsion accumulated for a node from a collection of others. -/
def forceOn (dt : ℝ) (p : Params) (n : Node) (others : List Node) : ℝ × ℝ :=
  (others.map (pairForce dt p n)).sum

/-- The first loop of `_update_nodes_with_interactions` (lines 415-439): for
every node, sum the repulsion from every *other* node, all read from the
pre-update snapshot `ns`. -/
def computeForces (dt : ℝ) (p : Params) (ns : List Node) : List (ℝ × ℝ) :=
  (List.range ns.length).map (fun i =>
    ((List.range ns.length).map (fun j =>
      if j = i then ((0 : ℝ), (0 : ℝ))
      else pairForce dt p (ns.getD i node0) (ns.getD j node0))).sum)

/-- The second loop of `_update_nodes_with_interactions` (lines 441-448):
apply each node's accumulated force to its velocity, then run its update.
`rand` injects the two `np.random.random()` boundary draws per node index. -/
def updateNodesWithInteractions (dt : ℝ) (p : Params) (m : Option MouseInfluence)
    (tNow : ℝ) (rand : ℕ → ℝ × ℝ) (ns : List Node) : List Node :=
  let forces := computeForces dt p ns
  mapWithIdx (fun i n =>
    nodeUpdate dt p m tNow (rand i).1 (rand i).2
      { n with vx := n.vx + (forces.getD i (0, 0)).1
               vy := n.vy + (forces.getD i (0, 0)).2 }) 0 ns

/-- Python `ConsciousnessLattice.update` (lines 388-410).  `tNow` is the wall clock
`time.time()`; the passed `_delta_time` is unused by the source, which clamps
the measured elapsed time to 0.05 s.  The mouse influence applied to nodes is
popped from the internal queue — the `m` argument is never consulted. -/
def latticeUpdate (s : Lattice) (tNow : ℝ) (_delta_time : ℝ)
    (_m : Option MouseInfluence) (rand : ℕ → ℝ × ℝ) : Lattice :=
  let actual_delta_time := min 0.05 (tNow - s.last_update_time)
  let time' := s.time + actual_delta_time * (s.params "time_dilation").getD 0
  let current : Option MouseInfluence × List MouseInfluence :=
    match s.mouse_influence_queue with
    | [] => (none, [])
    | h :: t => (some h, t)
  let ns := universesUpdate s.universes time' s.nodes
  let ns := updateNodesWithInteractions actual_delta_time s.params current.1 tNow rand ns
  updateClusters
    { s with nodes := ns
             time := time'
             last_update_time := tNow
             mouse_influence_queue := current.2 }

/-! Section — Field-preservation lemmas for the per-entity pipeline -/

@[simp] theorem applyMouseInteraction_phase (m : MouseInfluence) (dt : ℝ) (p : Params)
    (tNow : ℝ) (n : Node) : (applyMouseInteraction m dt p tNow n).phase = n.phase := by
  simp only [applyMouseInteraction]
  split_ifs <;> rfl

@[simp] theorem applyMouseInteraction_attention (m : MouseInfluence) (dt : ℝ) (p : Params)
    (tNow : ℝ) (n : Node) : (applyMouseInteraction m dt p tNow n).attention = n.attention := by
  simp only [applyMouseInteraction]
  split_ifs <;> rfl

@[simp] theorem applyGravity_phase (dt : ℝ) (p : Params) (n : Node) :
    (applyGravity dt p n).phase = n.phase := by
  simp only [applyGravity]
  split_ifs <;> rfl

@[simp] theorem applyGravity_attention (dt : ℝ) (p : Params) (n : Node) :
    (applyGravity dt p n).attention = n.attention := by
  simp only [applyGravity]
  split_ifs <;> rfl

@[simp] theorem integratePosition_phase (dt : ℝ) (n : Node) :
    (integratePosition dt n).phase = n.phase := rfl

@[simp] theorem integratePosition_attention (dt : ℝ) (n : Node) :
    (integratePosition dt n).attention = n.attention := rfl

@[simp] theorem applyFriction_phase (dt : ℝ) (p : Params) (n : Node) :
    (applyFriction dt p n).phase = n.phase := rfl

@[simp] theorem applyFriction_attention (dt : ℝ) (p : Params) (n : Node) :
    (applyFriction dt p n).attention = n.attention := rfl

@[simp] theorem boundaryAxisX_phase (p : Params) (rx : ℝ) (n : Node) :
    (boundaryAxisX p rx n).phase = n.phase := by
  simp only [boundaryAxisX]
  split_ifs <;> rfl

@[simp] theorem boundaryAxisX_attention (p : Params) (rx : ℝ) (n : Node) :
    (boundaryAxisX p rx n).attention = n.attention := by
  simp only [boundaryAxisX]
  split_ifs <;> rfl

@[simp] theorem boundaryAxisY_phase (p : Params) (ry : ℝ) (n : Node) :
    (boundaryAxisY p ry n).phase = n.phase := by
  simp only [boundaryAxisY]
  split_ifs <;> rfl

@[simp] theorem boundaryAxisY_attention (p : Params) (ry : ℝ) (n : Node) :
    (boundaryAxisY p ry n).attention = n.attention := by
  simp only [boundaryAxisY]
  split_ifs <;> rfl

@[simp] theorem applyPhysics_phase (dt : ℝ) (p : Params) (rx ry : ℝ) (n : Node) :
    (applyPhysics dt p rx ry n).phase = n.phase := by
  unfold applyPhysics prePhysics
  simp

@[simp] theorem applyPhysics_attention (dt : ℝ) (p : Params) (rx ry : ℝ) (n : Node) :
    (applyPhysics dt p rx ry n).attention = n.attention := by
  unfold applyPhysics prePhysics
  simp

@[simp] theorem updateIntelligenceTensors_phase (dt : ℝ) (p : Params) (n : Node) :
    (updateIntelligenceTensors dt p n).phase = n.phase := rfl

@[simp] theorem updateIntelligenceTensors_attention (dt : ℝ) (p : Params) (n : Node) :
    (updateIntelligenceTensors dt p n).attention = n.attention := rfl

theorem nodeUpdate_phase (delta_time : ℝ) (p : Params) (m : Option MouseInfluence)
    (tNow rx ry : ℝ) (n : Node) :
    (nodeUpdate delta_time p m tNow rx ry n).phase =
      realMod (n.phase + n.frequency * (delta_time * pget p "time_dilation" 1.0) *
        2 * π / 1000) (2 * π) := by
  unfold nodeUpdate
  cases m <;> simp

@[simp] theorem nodeUpdate_attention (delta_time : ℝ) (p : Params)
    (m : Option MouseInfluence) (tNow rx ry : ℝ) (n : Node) :
    (nodeUpdate delta_time p m tNow rx ry n).attention = n.attention := by
  unfold nodeUpdate
  cases m <;> simp

@[simp] theorem collapseNode_attention (x y : ℝ) (n : Node) :
    (collapseNode x y n).attention = n.attention := by
  simp only [collapseNode]
  split_ifs <;> rfl

/-! Section — C3: `set_parameters` and unrecognized keys -/

/-- Claim **C3, counterexample.**  The claim says that after `set_parameters` the
configuration map contains exactly the recognized keys, unrecognized input
keys being absent.  But `update_params` is `self.params.update(new_params)`:
passing the unrecognized key `"bogus"` leaves it present in the live map. -/
theorem claimC3_counterexample :
    ((update_params initParams [("bogus", 1)]) "bogus").isSome = true ∧
      "bogus" ∉ recognizedKeys := by
  constructor
  · rfl
  · decide

/-- Claim **C3, amended.**  `set_parameters(partial_map)` merges *every* provided
key — recognized or not — into the live configuration without error: a key is
present afterwards iff it was present before or appears in the input, keys
not mentioned by the input keep their previous value, and a provided key
takes the (last) provided value.  Unrecognized keys are thus absorbed into
the map, not dropped. -/
theorem update_params_merges (p : Params) (new : List (String × ℝ)) (k : String) :
    (((update_params p new) k).isSome ↔ ((p k).isSome ∨ k ∈ new.map Prod.fst)) ∧
    (k ∉ new.map Prod.fst → update_params p new k = p k) := by
  induction new generalizing p with
  | nil => simp [update_params]
  | cons kv t ih =>
      have step : update_params p (kv :: t) = update_params (dictInsert p kv.1 kv.2) t := rfl
      constructor
      · rw [step, (ih (dictInsert p kv.1 kv.2)).1]
        by_cases hk : k = kv.1
        · subst hk
          simp [dictInsert]
        · simp [dictInsert, hk]
      · intro hnot
        simp only [List.map_cons, List.mem_cons] at hnot
        push_neg at hnot
        rw [step, (ih (dictInsert p kv.1 kv.2)).2 hnot.2]
        simp [dictInsert, hnot.1]

/-- Claim **C3, witness.** -/
theorem update_params_merges_witness :
    update_params initParams [("bogus", 1)] "gravity" = initParams "gravity" ∧
      ((update_params initParams [("bogus", 1)]) "bogus").isSome = true := by
  refine ⟨(update_params_merges initParams [("bogus", 1)] "gravity").2 (by decide), ?_⟩
  have h := (update_params_merges initParams [("bogus", 1)] "bogus").1
  simp only [List.map_cons, List.map_nil, List.mem_cons] at h
  simp [h]

/-! Section — C6: phase stays in [0, 2π) -/

/-- Claim **C6.**  After every `advance` (`ConsciousnessNode.update`) the phase lies
in `[0, 2π)` regardless of the input phase's sign or magnitude, and
`quantum_collapse` likewise leaves every affected node (distance < 200) with
its phase reduced into `[0, 2π)`. -/
theorem phase_bounded :
    (∀ delta_time p m tNow rx ry n,
      0 ≤ (nodeUpdate delta_time p m tNow rx ry n).phase ∧
        (nodeUpdate delta_time p m tNow rx ry n).phase < 2 * π) ∧
    (∀ x y (n : Node), Real.sqrt ((n.x - x) ^ 2 + (n.y - y) ^ 2) < 200 →
      0 ≤ (collapseNode x y n).phase ∧ (collapseNode x y n).phase < 2 * π) := by
  constructor
  · intro delta_time p m tNow rx ry n
    rw [nodeUpdate_phase]
    exact ⟨realMod_nonneg _ _ Real.two_pi_pos, realMod_lt _ _ Real.two_pi_pos⟩
  · intro x y n hd
    have hphase : (collapseNode x y n).phase = realMod (n.phase + π) (2 * π) := by
      simp only [collapseNode]
      rw [if_pos hd]
      split_ifs <;> rfl
    rw [hphase]
    exact ⟨realMod_nonneg _ _ Real.two_pi_pos, realMod_lt _ _ Real.two_pi_pos⟩

/-- Claim **C6, witness**: the collapse half at a concrete zero-distance input. -/
theorem phase_bounded_witness :
    Real.sqrt ((node0.x - 0) ^ 2 + (node0.y - 0) ^ 2) < 200 ∧
      0 ≤ (collapseNode 0 0 node0).phase ∧ (collapseNode 0 0 node0).phase < 2 * π := by
  have hd : Real.sqrt ((node0.x - 0) ^ 2 + (node0.y - 0) ^ 2) < 200 := by
    simp [node0]
  exact ⟨hd, phase_bounded.2 0 0 node0 hd⟩

/-! Section — C1: the attention field sums to 1 after every normalization pass -/

theorem list_sum_map_div (l : List ℝ) (c : ℝ) :
    (l.map (fun a => a / c)).sum = l.sum / c := by
  induction l with
  | nil => simp
  | cons a t ih => simp [ih, add_div]

theorem normalizeAttentionField_sum_one (ns : List Node) (h : ns ≠ []) :
    ((normalizeAttentionField ns).map Node.attention).sum = 1 := by
  simp only [normalizeAttentionField]
  set withA := ns.map (fun n => { n with attention := attentionDensity n }) with hA
  set T := (withA.map Node.attention).sum with hT
  have hmap : withA.map Node.attention = ns.map attentionDensity := by
    rw [hA, List.map_map]
    rfl
  have hpos : T > 0 := by
    rw [hT, hmap]
    refine List.sum_pos _ ?_ (by simpa using h)
    intro a ha
    obtain ⟨n, _, rfl⟩ := List.mem_map.1 ha
    exact Real.exp_pos _
  rw [if_pos hpos, List.map_map]
  show (List.map ((fun a => a / T) ∘ Node.attention) withA).sum = 1
  rw [← List.map_map, list_sum_map_div, ← hT, div_self hpos.ne']

theorem normalizeAttentionField_length (ns : List Node) :
    (normalizeAttentionField ns).length = ns.length := by
  simp only [normalizeAttentionField]
  split_ifs <;> simp

/-- Claim **C1.**  The sum of attention over all entities equals 1 (exactly, in the
real-number model) immediately after `__init__`, after every `add_node` and
after every `remove_node`, provided the resulting entity collection is
non-empty (`add_node` always leaves it non-empty). -/
theorem attention_sum_one :
    (∀ us lambdas raw t0, raw ≠ [] →
      ((initLattice us lambdas raw t0).nodes.map Node.attention).sum = 1) ∧
    (∀ s x y freq phase uid,
      ((add_node s x y freq phase uid).nodes.map Node.attention).sum = 1) ∧
    (∀ s i, (remove_node s i).nodes ≠ [] →
      ((remove_node s i).nodes.map Node.attention).sum = 1) := by
  refine ⟨fun us lambdas raw t0 h => ?_, fun s x y freq phase uid => ?_, fun s i h => ?_⟩
  · exact normalizeAttentionField_sum_one raw h
  · exact normalizeAttentionField_sum_one _ (by simp [add_node])
  · refine normalizeAttentionField_sum_one _ ?_
    intro hnil
    apply h
    simp only [remove_node]
    rw [hnil]
    simp [normalizeAttentionField]

/-- Claim **C1, witness.** -/
theorem attention_sum_one_witness :
    ((initLattice [] [] [node0] 0).nodes.map Node.attention).sum = 1 :=
  attention_sum_one.1 [] [] [node0] 0 (by simp)

/-! Section — C9: cluster recomputation is idempotent on unchanged entity state -/

theorem setIds_map_coreOf (a : ℕ → ℤ) : ∀ (i : ℕ) (l : List Node),
    (setIds a i l).map coreOf = l.map coreOf := by
  intro i l
  induction l generalizing i with
  | nil => rfl
  | cons n t ih => simp [setIds, ih]; rfl

theorem setIds_setIds (a : ℕ → ℤ) : ∀ (i : ℕ) (l : List Node),
    setIds a i (setIds a i l) = setIds a i l := by
  intro i l
  induction l generalizing i with
  | nil => rfl
  | cons n t ih => simp [setIds, ih]

/-- Claim **C9.**  Running `_update_clusters` twice in a row with no intervening
`advance` yields exactly the same state as running it once: the rebuilt
cluster list and the written cluster ids are identical, because the pass
reads only position/phase/frequency and writes only cluster state. -/
theorem updateClusters_idempotent (s : Lattice) :
    updateClusters (updateClusters s) = updateClusters s := by
  unfold updateClusters
  simp only [setIds_map_coreOf, setIds_setIds]

/-! Section — C10: no per-frame operation writes attention -/

theorem list_set_self {α : Type} (l : List α) : ∀ (i : ℕ) (a : α),
    l[i]? = some a → l.set i a = l := by
  induction l with
  | nil => intro i a h; simp at h
  | cons b t ih =>
      intro i a h
      cases i with
      | zero => simp at h; simp [h]
      | succ j => simp at h; simp [ih j a h]

theorem modulateAt_map_attention (u : Universe) (tf : ℝ) (ns : List Node) (i : ℕ) :
    (modulateAt u tf ns i).map Node.attention = ns.map Node.attention := by
  unfold modulateAt
  split
  · rfl
  · next n h =>
      split_ifs with hin
      · rw [List.map_set]
        refine list_set_self _ i _ ?_
        rw [List.get?_eq_getElem?] at h
        rw [List.getElem?_map, h]
        rfl
      · rfl

theorem universeUpdate_map_attention (u : Universe) (tf : ℝ) (ns : List Node) :
    (universeUpdate u tf ns).map Node.attention = ns.map Node.attention := by
  unfold universeUpdate
  induction u.node_idxs generalizing ns with
  | nil => rfl
  | cons i t ih => rw [List.foldl_cons, ih, modulateAt_map_attention]

theorem universesUpdate_map_attention (us : List Universe) (tf : ℝ) (ns : List Node) :
    (universesUpdate us tf ns).map Node.attention = ns.map Node.attention := by
  unfold universesUpdate
  induction us generalizing ns with
  | nil => rfl
  | cons u t ih => rw [List.foldl_cons, ih, universeUpdate_map_attention]

theorem mapWithIdx_map_attention (f : ℕ → Node → Node)
    (hf : ∀ i n, (f i n).attention = n.attention) :
    ∀ (k : ℕ) (l : List Node), (mapWithIdx f k l).map Node.attention = l.map Node.attention := by
  intro k l
  induction l generalizing k with
  | nil => rfl
  | cons n t ih => simp [mapWithIdx, hf, ih]

theorem updateNodesWithInteractions_map_attention (dt : ℝ) (p : Params)
    (m : Option MouseInfluence) (tNow : ℝ) (rand : ℕ → ℝ × ℝ) (ns : List Node) :
    (updateNodesWithInteractions dt p m tNow rand ns).map Node.attention =
      ns.map Node.attention := by
  simp only [updateNodesWithInteractions]
  exact mapWithIdx_map_attention _ (fun i n => by simp) 0 ns

theorem setIds_map_attention (a : ℕ → ℤ) : ∀ (i : ℕ) (l : List Node),
    (setIds a i l).map Node.attention = l.map Node.attention := by
  intro i l
  induction l generalizing i with
  | nil => rfl
  | cons n t ih => simp [setIds, ih]

/-- Claim **C10.**  Neither `update` (one full `step` of the per-frame pipeline:
group modulation, pairwise forces, every node's `advance`, cluster
recomputation) nor `quantum_collapse` changes any node's attention; attention
is written only by `_normalize_attention_field`, which runs from `__init__`,
`add_node` and `remove_node`. -/
theorem attention_frame_invariant :
    (∀ s tNow dts m rand,
      (latticeUpdate s tNow dts m rand).nodes.map Node.attention =
        s.nodes.map Node.attention) ∧
    (∀ x y s, (quantumCollapse x y s).nodes.map Node.attention =
        s.nodes.map Node.attention) := by
  constructor
  · intro s tNow dts m rand
    simp only [latticeUpdate, updateClusters]
    rw [setIds_map_attention, updateNodesWithInteractions_map_attention,
      universesUpdate_map_attention]
  · intro x y s
    simp [quantumCollapse, List.map_map, Function.comp_def]

/-! Section — C2: which entities a group modulates -/

theorem list_get?_set_self {α : Type} : ∀ (l : List α) (i : ℕ) (a b : α),
    l.get? i = some b → (l.set i a).get? i = some a := by
  intro l
  induction l with
  | nil => intro i a b h; simp at h
  | cons c t ih =>
      intro i a b h
      cases i with
      | zero => rfl
      | succ j => exact ih j a b h

theorem list_get?_set_ne {α : Type} : ∀ (l : List α) (i j : ℕ) (a : α),
    i ≠ j → (l.set i a).get? j = l.get? j := by
  intro l
  induction l with
  | nil => intro i j a _; rfl
  | cons c t ih =>
      intro i j a hij
      cases i with
      | zero =>
          cases j with
          | zero => exact absurd rfl hij
          | succ k => rfl
      | succ i' =>
          cases j with
          | zero => rfl
          | succ k => exact ih i' k a (fun he => hij (by rw [he]))

theorem modulateAt_get?_ne (u : Universe) (tf : ℝ) (ns : List Node) (i j : ℕ)
    (hij : i ≠ j) : (modulateAt u tf ns i).get? j = ns.get? j := by
  unfold modulateAt
  split
  · rfl
  · split_ifs
    · exact list_get?_set_ne ns i j _ hij
    · rfl

theorem modFreq_overwrite (u : Universe) (tf : ℝ) (n : Node) :
    ({ { n with frequency := modFreq u tf n } with
        frequency := modFreq u tf { n with frequency := modFreq u tf n } } : Node) =
      { n with frequency := modFreq u tf n } := rfl

theorem modulate_foldl_get? (u : Universe) (tf : ℝ) :
    ∀ (idxs : List ℕ) (ns : List Node) (j : ℕ) (n : Node), ns.get? j = some n →
      (idxs.foldl (modulateAt u tf) ns).get? j =
        some (if j ∈ idxs ∧ inRange u n then { n with frequency := modFreq u tf n }
          else n) := by
  intro idxs
  induction idxs with
  | nil => intro ns j n h; simpa using h
  | cons i t ih =>
      intro ns j n h
      rw [List.foldl_cons]
      by_cases hji : j = i
      · subst hji
        by_cases hin : inRange u n
        · have hstep : modulateAt u tf ns j =
              ns.set j { n with frequency := modFreq u tf n } := by
            unfold modulateAt
            rw [h]
            simp [hin]
          rw [hstep]
          have hset : (ns.set j { n with frequency := modFreq u tf n }).get? j =
              some { n with frequency := modFreq u tf n } :=
            list_get?_set_self ns j _ n h
          rw [ih _ j _ hset, modFreq_overwrite, ite_self,
            if_pos (⟨List.mem_cons_self _ _, hin⟩ : j ∈ j :: t ∧ inRange u n)]
        · have hstep : modulateAt u tf ns j = ns := by
            unfold modulateAt
            rw [h]
            simp [hin]
          rw [hstep, ih ns j n h]
          simp [hin]
      · have hns : (modulateAt u tf ns i).get? j = some n := by
          rw [modulateAt_get?_ne u tf ns i j (fun he => hji he.symm)]
          exact h
        rw [ih _ j n hns]
        congr 1
        simp [List.mem_cons, hji]

/-- Claim **C2, amended.**  `Universe.update(time)` iterates the group's *stored
membership list* (`self.nodes`, filled at creation/`add_node`), not the whole
entity collection: a node's frequency is set to
`base_frequency * (1 + resonance_coeff * 0.2 * sin(time * 0.05))` exactly
when its index is in the membership list *and* its current distance to the
group's center is strictly below the radius; every other engine node —
including nodes inside the radius but belonging to another group — is left
untouched.  Only the distance filter is recomputed per call; the candidate
set is persisted from creation. -/
theorem universe_modulate_members (u : Universe) (tf : ℝ) (ns : List Node)
    (j : ℕ) (n : Node) (h : ns.get? j = some n) :
    (universeUpdate u tf ns).get? j =
      some (if j ∈ u.node_idxs ∧ inRange u n then
        { n with frequency := modFreq u tf n } else n) :=
  modulate_foldl_get? u tf u.node_idxs ns j n h

/-- A node 37 Hz off its 40 Hz base, sitting exactly on the center of a
universe it does not belong to. -/
def nC2 : Node := { node0 with frequency := 37 }

/-- A universe whose membership list is empty (the node above belongs to
universe 0, not this one), but whose boundary contains that node. -/
def uC2 : Universe :=
  { id := 1, center_x := 0, center_y := 0, radius := 100,
    resonance_coeff := 0.5, node_idxs := [] }

/-- Claim **C2, counterexample.**  The claim as stated — every engine entity
strictly inside a group's radius gets its frequency set by `modulate` — fails:
`nC2` lies at distance 0 from `uC2`'s center (inside radius 100), yet
`uC2`'s update leaves its frequency at 37, which differs from the mandated
`40 * (1 + 0.5 * 0.2 * sin 0) = 40`, because `nC2` is not in `uC2`'s stored
membership list. -/
theorem claimC2_counterexample :
    inRange uC2 nC2 ∧ (universeUpdate uC2 0 [nC2]).get? 0 = some nC2 ∧
      nC2.frequency ≠ modFreq uC2 0 nC2 := by
  refine ⟨?_, rfl, ?_⟩
  · simp [inRange, uC2, nC2, node0]
  · simp [modFreq, uC2, nC2, node0]

/-- Claim **C2, amended, witness.** -/
theorem universe_modulate_members_witness :
    (universeUpdate { uC2 with node_idxs := [0] } 0 [nC2]).get? 0 =
      some { nC2 with frequency := modFreq { uC2 with node_idxs := [0] } 0 nC2 } := by
  have h := universe_modulate_members { uC2 with node_idxs := [0] } 0 [nC2] 0 nC2 rfl
  rw [if_pos] at h
  · exact h
  · exact ⟨by simp, by simp [inRange, uC2, nC2, node0]⟩

/-! Section — C5: forces are computed from the pre-update snapshot, order-independently -/

theorem pairForce_self (dt : ℝ) (p : Params) (n : Node) :
    pairForce dt p n n = (0, 0) := by
  simp [pairForce, sub_self]

theorem list_getD_of_get? {α : Type} : ∀ (l : List α) (i : ℕ) (a d : α),
    l.get? i = some a → l.getD i d = a := by
  intro l
  induction l with
  | nil => intro i a d h; simp at h
  | cons b t ih =>
      intro i a d h
      cases i with
      | zero =>
          have hba : b = a := by simpa using h
          simpa using hba
      | succ j => exact ih j a d h

theorem list_range_map_getD {α : Type} : ∀ (l : List α) (d : α),
    (List.range l.length).map (fun j => l.getD j d) = l := by
  intro l d
  induction l with
  | nil => rfl
  | cons a t ih =>
      rw [List.length_cons, List.range_succ_eq_map, List.map_cons, List.map_map]
      exact congrArg (fun t' => a :: t') ih

/-- Claim **C5.**  The pairwise repulsion pass of `_update_nodes_with_interactions`
reads only the pre-update snapshot: the force accumulated for the entity at
index `i` equals `forceOn`, the sum of the pair forces against the *multiset*
of all entities (the self-pair contributing zero), and `forceOn` is invariant
under any permutation of the entity list — so permuting the collection and
re-running the force phase yields the same force for each entity. -/
theorem forces_order_independent (dt : ℝ) (p : Params) (l l' : List Node)
    (hp : l.Perm l') :
    (∀ n, forceOn dt p n l = forceOn dt p n l') ∧
    (∀ i n, l.get? i = some n →
      (computeForces dt p l).get? i = some (forceOn dt p n l)) := by
  constructor
  · intro n
    unfold forceOn
    exact List.Perm.sum_eq (hp.map _)
  · intro i n h
    have hi : i < l.length := by
      by_contra hlt
      push_neg at hlt
      rw [List.get?_eq_none.2 hlt] at h
      exact Option.noConfusion h
    unfold computeForces
    rw [List.get?_map]
    have hrange : (List.range l.length).get? i = some i := by
      rw [List.get?_eq_getElem?]
      simp [hi]
    rw [hrange, Option.map_some']
    congr 1
    rw [list_getD_of_get? l i n node0 h]
    have hcong : ∀ j ∈ List.range l.length,
        (if j = i then ((0 : ℝ), (0 : ℝ)) else pairForce dt p n (l.getD j node0)) =
          pairForce dt p n (l.getD j node0) := by
      intro j _
      by_cases hji : j = i
      · subst hji
        rw [if_pos rfl, list_getD_of_get? l j n node0 h, pairForce_self]
      · rw [if_neg hji]
    rw [List.map_congr_left hcong]
    have hmaps : (List.range l.length).map (fun j => pairForce dt p n (l.getD j node0)) =
        l.map (pairForce dt p n) := by
      have := list_range_map_getD l node0
      calc (List.range l.length).map (fun j => pairForce dt p n (l.getD j node0))
          = ((List.range l.length).map (fun j => l.getD j node0)).map
              (pairForce dt p n) := by rw [List.map_map]; rfl
        _ = l.map (pairForce dt p n) := by rw [this]
    rw [hmaps]
    rfl

/-- Claim **C5, witness.** -/
theorem forces_order_independent_witness :
    forceOn 1 initParams node0 [node0, { node0 with x := 50 }] =
      forceOn 1 initParams node0 [{ node0 with x := 50 }, node0] ∧
    (computeForces 1 initParams [node0, { node0 with x := 50 }]).get? 0 =
      some (forceOn 1 initParams node0 [node0, { node0 with x := 50 }]) := by
  have h := forces_order_independent 1 initParams [node0, { node0 with x := 50 }]
    [{ node0 with x := 50 }, node0] (List.Perm.swap _ _ _)
  exact ⟨h.1 node0, h.2 0 node0 rfl⟩

/-! Section — C7: boundary tunneling and reflection -/

@[simp] theorem boundaryAxisX_y (p : Params) (rx : ℝ) (n : Node) :
    (boundaryAxisX p rx n).y = n.y := by
  simp only [boundaryAxisX]
  split_ifs <;> rfl

@[simp] theorem boundaryAxisX_vy (p : Params) (rx : ℝ) (n : Node) :
    (boundaryAxisX p rx n).vy = n.vy := by
  simp only [boundaryAxisX]
  split_ifs <;> rfl

@[simp] theorem boundaryAxisY_x (p : Params) (ry : ℝ) (n : Node) :
    (boundaryAxisY p ry n).x = n.x := by
  simp only [boundaryAxisY]
  split_ifs <;> rfl

@[simp] theorem boundaryAxisY_vx (p : Params) (ry : ℝ) (n : Node) :
    (boundaryAxisY p ry n).vx = n.vx := by
  simp only [boundaryAxisY]
  split_ifs <;> rfl

theorem boundaryAxisX_overflow_pos (p : Params) (rx : ℝ) (n : Node) (h : n.x > 500) :
    (rx < 0.05 → (boundaryAxisX p rx n).x = -500 ∧
      (boundaryAxisX p rx n).vx = n.vx * (-0.5)) ∧
    (¬ rx < 0.05 → (boundaryAxisX p rx n).x = 500 ∧
      (boundaryAxisX p rx n).vx = n.vx * (-0.8 * pget p "elasticity" 0.8)) := by
  have hcond : n.x < -(1000 / 2) ∨ n.x > 1000 / 2 := Or.inr (by linarith)
  constructor <;> intro hr <;> unfold boundaryAxisX
  · rw [if_pos hcond, if_pos hr]
    refine ⟨?_, rfl⟩
    rw [if_neg (by linarith)]
    norm_num
  · rw [if_pos hcond, if_neg hr]
    refine ⟨?_, rfl⟩
    show min (1000 / 2) (max (-(1000 / 2)) n.x) = 500
    rw [max_eq_right (by linarith), min_eq_left (by linarith)]
    norm_num

theorem boundaryAxisX_overflow_neg (p : Params) (rx : ℝ) (n : Node) (h : n.x < -500) :
    (rx < 0.05 → (boundaryAxisX p rx n).x = 500 ∧
      (boundaryAxisX p rx n).vx = n.vx * (-0.5)) ∧
    (¬ rx < 0.05 → (boundaryAxisX p rx n).x = -500 ∧
      (boundaryAxisX p rx n).vx = n.vx * (-0.8 * pget p "elasticity" 0.8)) := by
  have hcond : n.x < -(1000 / 2) ∨ n.x > 1000 / 2 := Or.inl (by linarith)
  constructor <;> intro hr <;> unfold boundaryAxisX
  · rw [if_pos hcond, if_pos hr]
    refine ⟨?_, rfl⟩
    rw [if_pos (by linarith)]
    norm_num
  · rw [if_pos hcond, if_neg hr]
    refine ⟨?_, rfl⟩
    show min (1000 / 2) (max (-(1000 / 2)) n.x) = -500
    rw [max_eq_left (by linarith), min_eq_right (by linarith)]
    norm_num

theorem boundaryAxisY_overflow_pos (p : Params) (ry : ℝ) (n : Node) (h : n.y > 500) :
    (ry < 0.05 → (boundaryAxisY p ry n).y = -500 ∧
      (boundaryAxisY p ry n).vy = n.vy * (-0.5)) ∧
    (¬ ry < 0.05 → (boundaryAxisY p ry n).y = 500 ∧
      (boundaryAxisY p ry n).vy = n.vy * (-0.8 * pget p "elasticity" 0.8)) := by
  have hcond : n.y < -(1000 / 2) ∨ n.y > 1000 / 2 := Or.inr (by linarith)
  constructor <;> intro hr <;> unfold boundaryAxisY
  · rw [if_pos hcond, if_pos hr]
    refine ⟨?_, rfl⟩
    rw [if_neg (by linarith)]
    norm_num
  · rw [if_pos hcond, if_neg hr]
    refine ⟨?_, rfl⟩
    show min (1000 / 2) (max (-(1000 / 2)) n.y) = 500
    rw [max_eq_right (by linarith), min_eq_left (by linarith)]
    norm_num

theorem boundaryAxisY_overflow_neg (p : Params) (ry : ℝ) (n : Node) (h : n.y < -500) :
    (ry < 0.05 → (boundaryAxisY p ry n).y = 500 ∧
      (boundaryAxisY p ry n).vy = n.vy * (-0.5)) ∧
    (¬ ry < 0.05 → (boundaryAxisY p ry n).y = -500 ∧
      (boundaryAxisY p ry n).vy = n.vy * (-0.8 * pget p "elasticity" 0.8)) := by
  have hcond : n.y < -(1000 / 2) ∨ n.y > 1000 / 2 := Or.inl (by linarith)
  constructor <;> intro hr <;> unfold boundaryAxisY
  · rw [if_pos hcond, if_pos hr]
    refine ⟨?_, rfl⟩
    rw [if_pos (by linarith)]
    norm_num
  · rw [if_pos hcond, if_neg hr]
    refine ⟨?_, rfl⟩
    show min (1000 / 2) (max (-(1000 / 2)) n.y) = -500
    rw [max_eq_left (by linarith), min_eq_right (by linarith)]
    norm_num

/-- Claim **C7.**  Per axis independently, an entity whose post-integration position
in `advance` exceeds the half-extent 500: when the injected random draw is
below 0.05 it tunnels — teleported to the opposite boundary with that axis's
velocity multiplied by -0.5; otherwise it reflects — velocity multiplied by
`-0.8 * elasticity` and position clamped to the crossed boundary.  In
particular (the reflect branch, x-axis, positive side) an entity driven past
`x = 500` ends with `x = 500` and `vx` negated and scaled by
`elasticity * 0.8`. -/
theorem boundary_reflect_tunnel (dt : ℝ) (p : Params) (rx ry : ℝ) (n : Node) :
    ((prePhysics dt p n).x > 500 →
      (rx < 0.05 → (applyPhysics dt p rx ry n).x = -500 ∧
        (applyPhysics dt p rx ry n).vx = (prePhysics dt p n).vx * (-0.5)) ∧
      (¬ rx < 0.05 → (applyPhysics dt p rx ry n).x = 500 ∧
        (applyPhysics dt p rx ry n).vx =
          (prePhysics dt p n).vx * (-0.8 * pget p "elasticity" 0.8))) ∧
    ((prePhysics dt p n).x < -500 →
      (rx < 0.05 → (applyPhysics dt p rx ry n).x = 500 ∧
        (applyPhysics dt p rx ry n).vx = (prePhysics dt p n).vx * (-0.5)) ∧
      (¬ rx < 0.05 → (applyPhysics dt p rx ry n).x = -500 ∧
        (applyPhysics dt p rx ry n).vx =
          (prePhysics dt p n).vx * (-0.8 * pget p "elasticity" 0.8))) ∧
    ((prePhysics dt p n).y > 500 →
      (ry < 0.05 → (applyPhysics dt p rx ry n).y = -500 ∧
        (applyPhysics dt p rx ry n).vy = (prePhysics dt p n).vy * (-0.5)) ∧
      (¬ ry < 0.05 → (applyPhysics dt p rx ry n).y = 500 ∧
        (applyPhysics dt p rx ry n).vy =
          (prePhysics dt p n).vy * (-0.8 * pget p "elasticity" 0.8))) ∧
    ((prePhysics dt p n).y < -500 →
      (ry < 0.05 → (applyPhysics dt p rx ry n).y = 500 ∧
        (applyPhysics dt p rx ry n).vy = (prePhysics dt p n).vy * (-0.5)) ∧
      (¬ ry < 0.05 → (applyPhysics dt p rx ry n).y = -500 ∧
        (applyPhysics dt p rx ry n).vy =
          (prePhysics dt p n).vy * (-0.8 * pget p "elasticity" 0.8))) := by
  refine ⟨fun h => ?_, fun h => ?_, fun h => ?_, fun h => ?_⟩
  · have hb := boundaryAxisX_overflow_pos p rx (prePhysics dt p n) h
    unfold applyPhysics
    simpa using hb
  · have hb := boundaryAxisX_overflow_neg p rx (prePhysics dt p n) h
    unfold applyPhysics
    simpa using hb
  · have hz : (boundaryAxisX p rx (prePhysics dt p n)).y > 500 := by simpa using h
    have hb := boundaryAxisY_overflow_pos p ry _ hz
    unfold applyPhysics
    simpa using hb
  · have hz : (boundaryAxisX p rx (prePhysics dt p n)).y < -500 := by simpa using h
    have hb := boundaryAxisY_overflow_neg p ry _ hz
    unfold applyPhysics
    simpa using hb

/-- Parameters with gravity switched off, built through the engine's own
parameter-merge operation. -/
def pC7 : Params := update_params initParams [("gravity", 0)]

/-- An entity already past the +x boundary, moving at `vx = 3`. -/
def nC7 : Node := { node0 with x := 600, vx := 3 }

/-- Claim **C7, witness**: with the tunneling draw not taken (`rx = 1`), a `dt = 0`
physics step of the entity at `x = 600` clamps to `x = 500` and scales
`vx = 3` by `-0.8 * elasticity = -0.8 * 0.8`. -/
theorem boundary_reflect_tunnel_witness :
    (applyPhysics 0 pC7 1 1 nC7).x = 500 ∧
      (applyPhysics 0 pC7 1 1 nC7).vx = 3 * (-0.8 * 0.8) := by
  have hgrav : applyGravity 0 pC7 nC7 = nC7 := by
    unfold applyGravity
    rw [if_neg]
    show ¬ pget pC7 "gravity" 0 > 0
    norm_num [pget, pC7, update_params, dictInsert, List.foldl]
  have hx0 : (prePhysics 0 pC7 nC7).x = 600 := by
    unfold prePhysics applyFriction integratePosition
    rw [hgrav]
    show nC7.x + nC7.vx * 0 * 60 = 600
    simp [nC7, node0]
  have hx : (prePhysics 0 pC7 nC7).x > 500 := by
    rw [hx0]
    norm_num
  have hvx : (prePhysics 0 pC7 nC7).vx = 3 := by
    unfold prePhysics applyFriction integratePosition
    rw [hgrav]
    show nC7.vx * pget pC7 "friction" 0.99 ^ ((0:ℝ) * 60) = 3
    rw [show ((0:ℝ) * 60) = 0 by norm_num, Real.rpow_zero]
    simp [nC7, node0]
  have hela : pget pC7 "elasticity" 0.8 = 0.8 := by
    simp +decide [pget, pC7, update_params, dictInsert, initParams, List.foldl]
  have hb := ((boundary_reflect_tunnel 0 pC7 1 1 nC7).1 hx).2 (by norm_num)
  rw [hvx, hela] at hb
  exact hb

/-! Section — C8: zero-distance geometry -/

theorem atan2_zero : atan2 0 0 = 0 := by
  unfold atan2
  rw [show Complex.mk 0 0 = (0 : ℂ) from Complex.ext rfl rfl, Complex.arg_zero]

/-- An entity at `(10, 0)` with zero velocity. -/
def nC8 : Node := { node0 with x := 10 }

/-- An active `push` pointer exactly on that entity. -/
def mC8 : MouseInfluence := { x := 10, y := 0, mode := "push", active := true }

/-- Claim **C8, counterexample.**  The claim says a pointer exactly on an entity
applies *no* angle-dependent velocity delta.  In the source there is no
zero-distance guard in `_apply_mouse_interaction`: `atan2(0, 0)` evaluates to
0 (no fault), so a `push` at distance 0 changes the entity's `vx`. -/
theorem claimC8_counterexample :
    Real.sqrt ((mC8.x - nC8.x) ^ 2 + (mC8.y - nC8.y) ^ 2) = 0 ∧
      (applyMouseInteraction mC8 1 initParams 0 nC8).vx ≠ nC8.vx := by
  have hpg : pget initParams "field_strength" 1.0 = 1 := by
    have h10 : pget initParams "field_strength" 1.0 = 1.0 := by
      simp +decide [pget, initParams]
    rw [h10]
    norm_num
  constructor
  · simp [mC8, nC8, node0]
  · simp only [applyMouseInteraction, mC8, nC8, node0, hpg]
    norm_num [atan2_zero]

/-- Claim **C8, amended.**  Zero-distance geometry never faults, but the two sites
behave differently: `quantum_collapse` centered exactly on an entity zeroes
its complex value and shifts its phase while explicitly skipping the push
(velocity untouched — the `distance > 0` guard); the pointer interaction has
no such guard — with the pointer exactly on the entity it computes
`atan2(0,0) = 0` and, in `push` mode, applies the full-force delta along the
fixed angle-0 (+x) direction (`vy` unchanged) instead of skipping it. -/
theorem zero_distance_amended :
    (∀ n : Node, collapseNode n.x n.y n =
      { n with consciousness_re := 0, consciousness_im := 0,
               phase := realMod (n.phase + π) (2 * π) }) ∧
    (∀ (n : Node) (dt tNow : ℝ) (p : Params) (m : MouseInfluence),
      m.active = true → m.mode = "push" → m.x = n.x → m.y = n.y →
      0 < pget p "field_strength" 1.0 →
      (applyMouseInteraction m dt p tNow n).vx =
        n.vx - pget p "field_strength" 1.0 * 0.4 * dt * 60 ∧
      (applyMouseInteraction m dt p tNow n).vy = n.vy) := by
  constructor
  · intro n
    have h0 : Real.sqrt ((n.x - n.x) ^ 2 + (n.y - n.y) ^ 2) = 0 := by simp
    simp only [collapseNode, h0]
    norm_num
  · intro n dt tNow p m hact hmode hx hy hfs
    have hne : (200 : ℝ) * pget p "field_strength" 1.0 ≠ 0 := by positivity
    simp only [applyMouseInteraction, hact, hmode, hx, hy, sub_self]
    have h0 : Real.sqrt ((0 : ℝ) ^ 2 + (0 : ℝ) ^ 2) = 0 := by simp
    rw [h0]
    rw [if_neg (by simp), if_pos (by positivity), if_pos trivial]
    rw [atan2_zero, Real.cos_zero, Real.sin_zero]
    constructor
    · rw [sub_zero, div_self hne]
      ring
    · ring

/-- Claim **C8, amended, witness.** -/
theorem zero_distance_amended_witness :
    collapseNode nC8.x nC8.y nC8 =
      { nC8 with consciousness_re := 0, consciousness_im := 0,
                 phase := realMod (nC8.phase + π) (2 * π) } ∧
    (applyMouseInteraction mC8 1 initParams 0 nC8).vx =
      nC8.vx - pget initParams "field_strength" 1.0 * 0.4 * 1 * 60 := by
  refine ⟨zero_distance_amended.1 nC8,
    (zero_distance_amended.2 nC8 1 0 initParams mC8 rfl rfl rfl rfl ?_).1⟩
  have h10 : pget initParams "field_strength" 1.0 = 1.0 := by
    simp +decide [pget, initParams]
  rw [h10]
  norm_num

/-! Section — C4: pointer interaction during `step` -/

/-- The `distance_mouse` local of `_apply_mouse_interaction` (line 125). -/
def mouseDist (m : MouseInfluence) (n : Node) : ℝ :=
  Real.sqrt ((m.x - n.x) ^ 2 + (m.y - n.y) ^ 2)

/-- The `force` local of `_apply_mouse_interaction` (lines 130-131). -/
def mouseForce (m : MouseInfluence) (p : Params) (n : Node) : ℝ :=
  (200 * pget p "field_strength" 1.0 - mouseDist m n) /
    (200 * pget p "field_strength" 1.0) * pget p "field_strength" 1.0

theorem cos_atan2 (y x : ℝ) (h : 0 < Real.sqrt (x ^ 2 + y ^ 2)) :
    Real.cos (atan2 y x) = x / Real.sqrt (x ^ 2 + y ^ 2) := by
  have hz : Complex.mk x y ≠ 0 := by
    intro he
    have hx0 : x = 0 := congrArg Complex.re he
    have hy0 : y = 0 := congrArg Complex.im he
    rw [hx0, hy0] at h
    simp at h
  have habs : Complex.abs (Complex.mk x y) = Real.sqrt (x ^ 2 + y ^ 2) := by
    rw [Complex.abs_apply, Complex.normSq_mk]
    ring_nf
  unfold atan2
  rw [Complex.cos_arg hz, habs]

theorem sin_atan2 (y x : ℝ) :
    Real.sin (atan2 y x) = y / Real.sqrt (x ^ 2 + y ^ 2) := by
  have habs : Complex.abs (Complex.mk x y) = Real.sqrt (x ^ 2 + y ^ 2) := by
    rw [Complex.abs_apply, Complex.normSq_mk]
    ring_nf
  unfold atan2
  rw [Complex.sin_arg, habs]

/-- Claim **C4, amended.**  In the engine, `update` ignores the pointer argument it
was called with: the influence applied to the nodes is popped from the
internal `mouse_influence_queue` (nothing in this repository ever fills it).
When an influence record *is* applied to a node's `advance` — active, at
positive distance `d < 200 * field_strength` — the velocity delta is the
linear-falloff force along the pointer direction per mode: `push` subtracts
`(pointer − pos)/d` scaled by `force * 0.4 * dt * 60` (radially outward),
`pull` adds it (inward), `vortex` adds the +90°-rotated direction scaled by
`force * 0.5 * dt * 60`, and `wave` adds the pointer direction with the
time-varying magnitude `sin(0.05*d − 10*t) * force * 0.5 * dt * 60`. -/
theorem pointer_force_modes :
    (∀ (s : Lattice) (tNow dts : ℝ) (m1 m2 : Option MouseInfluence)
        (rand : ℕ → ℝ × ℝ),
      latticeUpdate s tNow dts m1 rand = latticeUpdate s tNow dts m2 rand) ∧
    (∀ (m : MouseInfluence) (dt tNow : ℝ) (p : Params) (n : Node),
      m.active = true → 0 < mouseDist m n →
      mouseDist m n < 200 * pget p "field_strength" 1.0 →
      ((m.mode = "push" →
        (applyMouseInteraction m dt p tNow n).vx =
          n.vx - (m.x - n.x) / mouseDist m n * mouseForce m p n * 0.4 * dt * 60 ∧
        (applyMouseInteraction m dt p tNow n).vy =
          n.vy - (m.y - n.y) / mouseDist m n * mouseForce m p n * 0.4 * dt * 60) ∧
       (m.mode = "pull" →
        (applyMouseInteraction m dt p tNow n).vx =
          n.vx + (m.x - n.x) / mouseDist m n * mouseForce m p n * 0.4 * dt * 60 ∧
        (applyMouseInteraction m dt p tNow n).vy =
          n.vy + (m.y - n.y) / mouseDist m n * mouseForce m p n * 0.4 * dt * 60) ∧
       (m.mode = "vortex" →
        (applyMouseInteraction m dt p tNow n).vx =
          n.vx + (-(m.y - n.y)) / mouseDist m n * mouseForce m p n * 0.5 * dt * 60 ∧
        (applyMouseInteraction m dt p tNow n).vy =
          n.vy + (m.x - n.x) / mouseDist m n * mouseForce m p n * 0.5 * dt * 60) ∧
       (m.mode = "wave" →
        (applyMouseInteraction m dt p tNow n).vx =
          n.vx + (m.x - n.x) / mouseDist m n *
            (Real.sin (mouseDist m n * 0.05 - tNow * 10) * mouseForce m p n) *
            0.5 * dt * 60 ∧
        (applyMouseInteraction m dt p tNow n).vy =
          n.vy + (m.y - n.y) / mouseDist m n *
            (Real.sin (mouseDist m n * 0.05 - tNow * 10) * mouseForce m p n) *
            0.5 * dt * 60))) := by
  constructor
  · intro s tNow dts m1 m2 rand
    rfl
  · intro m dt tNow p n hact hd0 hdm
    rw [mouseDist] at hd0 hdm
    have hcos : Real.cos (atan2 (m.y - n.y) (m.x - n.x)) =
        (m.x - n.x) / Real.sqrt ((m.x - n.x) ^ 2 + (m.y - n.y) ^ 2) :=
      cos_atan2 _ _ hd0
    have hsin : Real.sin (atan2 (m.y - n.y) (m.x - n.x)) =
        (m.y - n.y) / Real.sqrt ((m.x - n.x) ^ 2 + (m.y - n.y) ^ 2) :=
      sin_atan2 _ _
    refine ⟨fun hmode => ?_, fun hmode => ?_, fun hmode => ?_, fun hmode => ?_⟩ <;>
      simp only [applyMouseInteraction, hact, hmode] <;>
      rw [if_neg (by simp), if_pos hdm]
    · rw [if_pos trivial]
      constructor
      · show n.vx - Real.cos (atan2 (m.y - n.y) (m.x - n.x)) * _ * 0.4 * dt * 60 = _
        rw [hcos, mouseForce, mouseDist]
      · show n.vy - Real.sin (atan2 (m.y - n.y) (m.x - n.x)) * _ * 0.4 * dt * 60 = _
        rw [hsin, mouseForce, mouseDist]
    · rw [if_neg (by decide), if_pos trivial]
      constructor
      · show n.vx + Real.cos (atan2 (m.y - n.y) (m.x - n.x)) * _ * 0.4 * dt * 60 = _
        rw [hcos, mouseForce, mouseDist]
      · show n.vy + Real.sin (atan2 (m.y - n.y) (m.x - n.x)) * _ * 0.4 * dt * 60 = _
        rw [hsin, mouseForce, mouseDist]
    · rw [if_neg (by decide), if_neg (by decide), if_pos trivial]
      constructor
      · show n.vx + Real.cos (atan2 (m.y - n.y) (m.x - n.x) + π / 2) * _ * 0.5 * dt * 60 = _
        rw [Real.cos_add_pi_div_two, hsin, mouseForce, mouseDist]
        ring
      · show n.vy + Real.sin (atan2 (m.y - n.y) (m.x - n.x) + π / 2) * _ * 0.5 * dt * 60 = _
        rw [Real.sin_add_pi_div_two, hcos, mouseForce, mouseDist]
    · rw [if_neg (by decide), if_neg (by decide), if_neg (by decide), if_pos trivial]
      constructor
      · show n.vx + Real.cos (atan2 (m.y - n.y) (m.x - n.x)) * _ * 0.5 * dt * 60 = _
        rw [hcos, mouseForce, mouseDist]
      · show n.vy + Real.sin (atan2 (m.y - n.y) (m.x - n.x)) * _ * 0.5 * dt * 60 = _
        rw [hsin, mouseForce, mouseDist]

/-- The entity used against C4: the default node at the origin with zero
velocity. -/
def nC4 : Node := node0

/-- An active `push` pointer 50 units to the right of `nC4`. -/
def mC4 : MouseInfluence := { x := 50, y := 0, mode := "push", active := true }

/-- A one-entity engine state with an empty internal mouse queue, as built by
this repository (nothing ever appends to `mouse_influence_queue`). -/
def sC4 : Lattice :=
  { nodes := [nC4], universes := [], clusters := [], lambdas := [],
    params := initParams, time := 0, last_update_time := 0,
    mouse_influence_queue := [] }

/-- The injected boundary draws for the C4 step (never below 0.05). -/
def randC4 : ℕ → ℝ × ℝ := fun _ => (1, 1)

theorem hC4_dist : mouseDist mC4 nC4 = 50 := by
  unfold mouseDist
  rw [show (mC4.x - nC4.x) ^ 2 + (mC4.y - nC4.y) ^ 2 = (50 : ℝ) ^ 2 by
    simp [mC4, nC4, node0]]
  rw [Real.sqrt_sq (by norm_num : (0:ℝ) ≤ 50)]

/-- Claim **C4, amended, witness**: the `push` formula at the concrete in-range
instance. -/
theorem pointer_force_modes_witness :
    (applyMouseInteraction mC4 1 initParams 0 nC4).vx =
      nC4.vx - (mC4.x - nC4.x) / mouseDist mC4 nC4 * mouseForce mC4 initParams nC4 *
        0.4 * 1 * 60 := by
  have hfs : pget initParams "field_strength" 1.0 = 1.0 := by
    simp +decide [pget, initParams]
  have h := (pointer_force_modes.2 mC4 1 0 initParams nC4 rfl
    (by rw [hC4_dist]; norm_num)
    (by rw [hC4_dist, hfs]; norm_num)).1 rfl
  exact h.1

theorem setIds_map_vx (a : ℕ → ℤ) : ∀ (i : ℕ) (l : List Node),
    (setIds a i l).map Node.vx = l.map Node.vx := by
  intro i l
  induction l generalizing i with
  | nil => rfl
  | cons n t ih => simp [setIds, ih]

/-- A node sitting at the origin with zero velocity stays at zero `vx`
through the physics step: no gravity (distance ≤ 10), no motion, no friction
effect on a zero velocity, no boundary crossing. -/
theorem stationary_vx (dt' : ℝ) (p : Params) (rx ry : ℝ) (nn : Node)
    (hx : nn.x = 0) (hy : nn.y = 0) (hvx : nn.vx = 0) (hvy : nn.vy = 0) :
    (applyPhysics dt' p rx ry nn).vx = 0 := by
  have hg : applyGravity dt' p nn = nn := by
    simp only [applyGravity]
    split_ifs with h1 h2
    · exfalso
      rw [hx, hy] at h2
      norm_num at h2
    · rfl
    · rfl
  have hfx : (applyFriction dt' p (integratePosition dt' nn)).x = 0 := by
    show nn.x + nn.vx * dt' * 60 = 0
    rw [hx, hvx]
    ring
  have hfy : (applyFriction dt' p (integratePosition dt' nn)).y = 0 := by
    show nn.y + nn.vy * dt' * 60 = 0
    rw [hy, hvy]
    ring
  have hfvx : (applyFriction dt' p (integratePosition dt' nn)).vx = 0 := by
    show nn.vx * (pget p "friction" 0.99 ^ (dt' * 60)) = 0
    rw [hvx]
    ring
  unfold applyPhysics prePhysics
  rw [hg]
  have hcx : ¬((applyFriction dt' p (integratePosition dt' nn)).x < -(1000 / 2) ∨
      (applyFriction dt' p (integratePosition dt' nn)).x > 1000 / 2) := by
    rw [hfx]
    norm_num
  have hbx : boundaryAxisX p rx (applyFriction dt' p (integratePosition dt' nn)) =
      applyFriction dt' p (integratePosition dt' nn) := by
    unfold boundaryAxisX
    rw [if_neg hcx]
  rw [hbx]
  have hcy : ¬((applyFriction dt' p (integratePosition dt' nn)).y < -(1000 / 2) ∨
      (applyFriction dt' p (integratePosition dt' nn)).y > 1000 / 2) := by
    rw [hfy]
    norm_num
  have hby : boundaryAxisY p ry (applyFriction dt' p (integratePosition dt' nn)) =
      applyFriction dt' p (integratePosition dt' nn) := by
    unfold boundaryAxisY
    rw [if_neg hcy]
  rw [hby]
  exact hfvx

/-- Running `advance` with no mouse influence leaves a stationary origin node's `vx`
at zero. -/
theorem nodeUpdate_stationary_vx (dt : ℝ) (p : Params) (tNow rx ry : ℝ)
    (n : Node) (hx : n.x = 0) (hy : n.y = 0) (hvx : n.vx = 0) (hvy : n.vy = 0) :
    (nodeUpdate dt p none tNow rx ry n).vx = 0 :=
  stationary_vx (dt * pget p "time_dilation" 1.0) p rx ry _ hx hy hvx hvy

/-- Claim **C4, counterexample.**  A `step` call carrying an active in-range `push`
pointer: the pointer is 50 < 200 · field_strength away from the single
entity, so the claim mandates a nonzero `push` velocity delta as part of the
step — but the engine pops its (empty) internal queue instead of using the
argument, and the entity's `vx` is still 0 after the step, while the
mandated post-step `vx` (initial 0 plus the push delta at the step's
effective `dt = min(0.05, elapsed) * time_dilation`) is −0.9 ≠ 0. -/
theorem claimC4_counterexample :
    mC4.active = true ∧
    mouseDist mC4 nC4 < 200 * pget sC4.params "field_strength" 1.0 ∧
    (latticeUpdate sC4 1 0.016 (some mC4) randC4).nodes.map Node.vx = [0] ∧
    nC4.vx - (mC4.x - nC4.x) / mouseDist mC4 nC4 * mouseForce mC4 sC4.params nC4 *
      0.4 * (min 0.05 (1 - sC4.last_update_time) *
        pget sC4.params "time_dilation" 1.0) * 60 ≠ 0 := by
  have hfs : pget initParams "field_strength" 1.0 = 1.0 := by
    simp +decide [pget, initParams]
  have htd : pget initParams "time_dilation" 1.0 = 1.0 := by
    simp +decide [pget, initParams]
  refine ⟨rfl, ?_, ?_, ?_⟩
  · show mouseDist mC4 nC4 < 200 * pget initParams "field_strength" 1.0
    rw [hC4_dist, hfs]
    norm_num
  · have hsplit : (latticeUpdate sC4 1 0.016 (some mC4) randC4).nodes =
        setIds (clusterAssign (buildClusters
          ((updateNodesWithInteractions (min 0.05 (1 - 0)) initParams none 1 randC4
            [nC4]).map coreOf))) 0
          (updateNodesWithInteractions (min 0.05 (1 - 0)) initParams none 1 randC4
            [nC4]) := rfl
    rw [hsplit, setIds_map_vx]
    have hone : updateNodesWithInteractions (min 0.05 (1 - 0)) initParams none 1 randC4
        [nC4] = [nodeUpdate (min 0.05 (1 - 0)) initParams none 1 1 1
          { nC4 with
            vx := nC4.vx + ((computeForces (min 0.05 (1 - 0)) initParams
              [nC4]).getD 0 (0, 0)).1
            vy := nC4.vy + ((computeForces (min 0.05 (1 - 0)) initParams
              [nC4]).getD 0 (0, 0)).2 }] := rfl
    rw [hone]
    have hF : computeForces (min 0.05 (1 - 0)) initParams [nC4] = [(0, 0)] := by
      have hr1 : List.range 1 = [0] := rfl
      simp [computeForces, hr1]
    show [(nodeUpdate (min 0.05 (1 - 0)) initParams none 1 1 1 _).vx] = [0]
    rw [nodeUpdate_stationary_vx]
    · show nC4.x = 0
      rfl
    · show nC4.y = 0
      rfl
    · show nC4.vx + ((computeForces (min 0.05 (1 - 0)) initParams
        [nC4]).getD 0 (0, 0)).1 = 0
      rw [hF]
      show (0 : ℝ) + 0 = 0
      ring
    · show nC4.vy + ((computeForces (min 0.05 (1 - 0)) initParams
        [nC4]).getD 0 (0, 0)).2 = 0
      rw [hF]
      show (0 : ℝ) + 0 = 0
      ring
  · show nC4.vx - (mC4.x - nC4.x) / mouseDist mC4 nC4 *
      mouseForce mC4 initParams nC4 * 0.4 *
      (min 0.05 (1 - (0 : ℝ)) * pget initParams "time_dilation" 1.0) * 60 ≠ 0
    rw [hC4_dist, htd]
    rw [show mouseForce mC4 initParams nC4 = 0.75 by
      unfold mouseForce
      rw [hC4_dist, hfs]
      norm_num]
    rw [show min (0.05 : ℝ) (1 - 0) = 0.05 by
      rw [show (1 : ℝ) - 0 = 1 by norm_num]
      exact min_eq_left (by norm_num)]
    show (0 : ℝ) - (50 - 0) / 50 * 0.75 * 0.4 * (0.05 * 1.0) * 60 ≠ 0
    norm_num

end

end CONSIM
